import Mathlib

/-!
# MikaBooM adaptive load control subsystem — verification development

Shallow embedding of the adaptive load control core of the MikaBooM
repository: the CPU load worker (`internal/worker/cpu_worker.go`), the
memory load worker (`internal/worker/memory_worker.go`) and the control
loop embedded in `main` (edge-triggered start/stop decisions plus
rate-limited set-point adjustment).

Modelling conventions:
* Go `float64` values (usage percentages, durations) are modelled as `ℚ`;
  Go `int32`/`int64` values as `ℤ` (all programs here keep them far from
  the overflow boundary, and every stored value is clamped).
* Go `int64(f)` float-to-integer conversion truncates toward zero; it is
  modelled by `goTrunc`.
* Wall-clock time is threaded explicitly, in milliseconds, as a `ℚ`
  parameter `now`; `time.Since(t) < d` becomes `now - t < d`.
* The concurrent goroutines (CPU lanes, the 1 s memory convergence loop,
  the controller loop) are modelled as a sequential interleaving of
  atomic operations: each public method and each convergence tick is one
  step of a state machine.
-/

namespace MikaBooM

/-- Go `int64(f)` conversion from `float64`: truncation toward zero
(`-⌊-q⌋ = ⌈q⌉` on the negative branch). -/
def goTrunc (q : ℚ) : ℤ :=
  if 0 ≤ q then ⌊q⌋ else -⌊-q⌋

/-! ## CPU worker (`cpu_worker.go`) -/

/-- State of `worker.CPUWorker`.  The Go struct additionally holds the
`stopChan`/`wg` plumbing and a cached `usage` atomic that no accessor
reads; they have no observable effect in the sequential model. -/
structure CPUWorker where
  threshold : ℤ
  running : Bool
  /-- lane count, set to `runtime.NumCPU()` at construction -/
  workers : ℕ
  /-- duty-cycle intensity, a Go `int32` in the source -/
  intensity : ℤ
  /-- time of the last accepted adjustment, in milliseconds -/
  lastAdjustTime : ℚ

/-- `NewCPUWorker`: constructed stopped, with intensity 30 and
`lastAdjustTime = time.Now()`. -/
def NewCPUWorker (threshold : ℤ) (numCPU : ℕ) (now : ℚ) : CPUWorker :=
  { threshold := threshold
    running := false
    workers := numCPU
    intensity := 30
    lastAdjustTime := now }

/-- `CPUWorker.Start`: no-op when already running, else spawns the lanes
and sets `running`. -/
def CPUWorker.Start (w : CPUWorker) : CPUWorker :=
  if w.running then w else { w with running := true }

/-- `CPUWorker.Stop`: no-op when not running, else clears `running`
(and resets the cached usage estimate, which the model derives). -/
def CPUWorker.Stop (w : CPUWorker) : CPUWorker :=
  if !w.running then w else { w with running := false }

/-- `CPUWorker.AdjustLoad(currentWorkerUsage, targetWorkerUsage)`:
tiered-step closed-loop adjustment with a 500 ms cooldown. -/
def CPUWorker.AdjustLoad (w : CPUWorker) (now currentWorkerUsage targetWorkerUsage : ℚ) :
    CPUWorker :=
  if !w.running then w
  else if now - w.lastAdjustTime < 500 then w
  else
    let diff := targetWorkerUsage - currentWorkerUsage
    let currentIntensity := w.intensity
    let newIntensity :=
      if diff > 20 then currentIntensity + 10
      else if diff > 10 then currentIntensity + 5
      else if diff > 5 then currentIntensity + 3
      else if diff > 2 then currentIntensity + 2
      else if diff > 1/2 then currentIntensity + 1
      else if diff < -20 then currentIntensity - 10
      else if diff < -10 then currentIntensity - 5
      else if diff < -5 then currentIntensity - 3
      else if diff < -2 then currentIntensity - 2
      else if diff < -(1/2) then currentIntensity - 1
      else currentIntensity
    let newIntensity' :=
      if newIntensity < 0 then 0
      else if newIntensity > 100 then 100
      else newIntensity
    { w with intensity := newIntensity', lastAdjustTime := now }

/-- `CPUWorker.GetUsage`: open-loop estimate
`(intensity/100) * workers * 100 / runtime.NumCPU()`, top-clamped at 100;
0 when not running.  `numCPU` is the ambient `runtime.NumCPU()`. -/
def CPUWorker.GetUsage (w : CPUWorker) (numCPU : ℕ) : ℚ :=
  if !w.running then 0
  else
    let intensity : ℚ := (w.intensity : ℚ)
    let estimatedUsage := intensity / 100 * (w.workers : ℚ) * 100 / (numCPU : ℚ)
    if estimatedUsage > 100 then 100 else estimatedUsage

/-- `CPUWorker.IsRunning`. -/
def CPUWorker.IsRunning (w : CPUWorker) : Bool := w.running

/-- `CPUWorker.GetIntensity`. -/
def CPUWorker.GetIntensity (w : CPUWorker) : ℤ := w.intensity

/-- `CPUWorker.SetIntensity`: clamps the argument into `[0,100]`. -/
def CPUWorker.SetIntensity (w : CPUWorker) (intensity : ℤ) : CPUWorker :=
  let i := if intensity < 0 then 0 else if intensity > 100 then 100 else intensity
  { w with intensity := i }

/-- `CPUWorker.ResetIntensity`: back to the default 30. -/
def CPUWorker.ResetIntensity (w : CPUWorker) : CPUWorker :=
  { w with intensity := 30 }

/-- Lane duty cycle (`work` body): busy time per cycle in microseconds,
`time.Duration(intensity) * time.Microsecond * 100`. -/
def laneWorkDuration (intensity : ℤ) : ℤ := intensity * 100

/-- Lane duty cycle: sleep time per cycle in microseconds,
`time.Duration(100-intensity) * time.Microsecond * 100`. -/
def laneSleepDuration (intensity : ℤ) : ℤ := (100 - intensity) * 100

/-- One public operation on the CPU worker (one step of the sequential
interleaving model). -/
inductive CPUOp where
  | start : CPUOp
  | stop : CPUOp
  | setIntensity (v : ℤ) : CPUOp
  | adjustLoad (now currentUsage targetUsage : ℚ) : CPUOp
  | resetIntensity : CPUOp

/-- Apply one operation to a CPU worker state. -/
def cpuApply (w : CPUWorker) : CPUOp → CPUWorker
  | CPUOp.start => w.Start
  | CPUOp.stop => w.Stop
  | CPUOp.setIntensity v => w.SetIntensity v
  | CPUOp.adjustLoad now c t => w.AdjustLoad now c t
  | CPUOp.resetIntensity => w.ResetIntensity

/-- Run a sequence of operations from a starting state. -/
def cpuRun (w : CPUWorker) : List CPUOp → CPUWorker
  | [] => w
  | op :: rest => cpuRun (cpuApply w op) rest

/-! ## Memory worker (`internal/worker/memory_worker.go`) -/

/-- One allocated `[]byte` buffer: its length and its byte contents
(`byteAt j` is the byte at offset `j`, for `j < len`). -/
structure Chunk where
  len : ℕ
  byteAt : ℕ → ℕ

/-- `make([]byte, n)` followed by the commit-touch loop
`for j := 0; j < len(chunk); j += 4096 { chunk[j] = byte(j % 256) }`:
offsets at the 4096 stride hold `byte(j % 256)`, every other offset the
zero `make` gave it. -/
def mkChunk (n : ℕ) : Chunk :=
  { len := n
    byteAt := fun j => if j % 4096 = 0 then j % 256 else 0 }

/-- Total byte count of a chunk list (`getCurrentAllocatedSize`'s loop). -/
def allocatedSum : List Chunk → ℤ
  | [] => 0
  | c :: rest => (c.len : ℤ) + allocatedSum rest

/-- State of `worker.MemoryWorker` (the `stopChan` plumbing and the
unread `usage` atomic are omitted, as for the CPU worker). -/
structure MemoryWorker where
  threshold : ℤ
  running : Bool
  /-- `allocatedMem`, in allocation order (most recent last) -/
  allocatedMem : List Chunk
  /-- `targetSize` in bytes -/
  targetSize : ℤ
  /-- `totalMemory` in bytes -/
  totalMemory : ℤ
  /-- time of the last accepted adjustment, in milliseconds -/
  lastAdjustTime : ℚ

/-- `NewMemoryWorker`: the `mem.VirtualMemory()` reading is external;
`vmTotal = some t` models a successful reading `t`, `none` a failure
(fall back to the 16 GiB default). -/
def NewMemoryWorker (threshold : ℤ) (vmTotal : Option ℤ) (now : ℚ) : MemoryWorker :=
  { threshold := threshold
    running := false
    allocatedMem := []
    targetSize := 0
    totalMemory := match vmTotal with
      | some t => t
      | none => 16 * 1024 * 1024 * 1024
    lastAdjustTime := now }

/-- `MemoryWorker.Start`: no-op when already running. -/
def MemoryWorker.Start (w : MemoryWorker) : MemoryWorker :=
  if w.running then w else { w with running := true }

/-- `MemoryWorker.Stop`: early-returns when not running; otherwise
clears `running`, frees every chunk and resets the target to 0. -/
def MemoryWorker.Stop (w : MemoryWorker) : MemoryWorker :=
  if !w.running then w
  else { w with running := false, allocatedMem := [], targetSize := 0 }

/-- `MemoryWorker.getCurrentAllocatedSize`. -/
def MemoryWorker.getCurrentAllocatedSize (w : MemoryWorker) : ℤ :=
  allocatedSum w.allocatedMem

/-- `MemoryWorker.allocateMemory(size)`: append `size / 10MiB` full
10 MiB chunks plus one `size % 10MiB` remainder chunk when nonzero,
each committed by the 4096-stride touch loop (`mkChunk`).  Go `/` and
`%` on `int64` truncate toward zero (`Int.tdiv` / `Int.tmod`). -/
def MemoryWorker.allocateMemory (w : MemoryWorker) (size : ℤ) : MemoryWorker :=
  let chunkSize : ℤ := 10 * 1024 * 1024
  let chunks := Int.tdiv size chunkSize
  let full := List.replicate chunks.toNat (mkChunk chunkSize.toNat)
  let remainder := Int.tmod size chunkSize
  let rem := if remainder > 0 then [mkChunk remainder.toNat] else []
  { w with allocatedMem := w.allocatedMem ++ full ++ rem }

/-- The loop body of `MemoryWorker.freeMemory`: walk the chunk list from
the most recently allocated end (the argument is the original list
reversed, so the head is the last-allocated chunk), accumulating dropped
bytes in `freed` until `freed ≥ size`; chunks seen once `freed ≥ size`
holds are kept, returned in their original (allocation) order. -/
def freeScan (size : ℤ) : ℤ → List Chunk → List Chunk
  | _, [] => []
  | freed, c :: rest =>
    if size ≤ freed then freeScan size freed rest ++ [c]
    else freeScan size (freed + (c.len : ℤ)) rest

/-- `MemoryWorker.freeMemory(size)`: free chunks from the
most-recently-allocated end first until at least `size` bytes are freed. -/
def MemoryWorker.freeMemory (w : MemoryWorker) (size : ℤ) : MemoryWorker :=
  { w with allocatedMem := freeScan size 0 w.allocatedMem.reverse }

/-- One iteration of the 1 s convergence ticker in `MemoryWorker.work`.
The goroutine only exists while the worker runs, so the tick is a no-op
on a stopped worker. -/
def MemoryWorker.tick (w : MemoryWorker) : MemoryWorker :=
  if !w.running then w
  else
    let targetSize := w.targetSize
    let currentSize := w.getCurrentAllocatedSize
    let diff := targetSize - currentSize
    if diff > 0 then w.allocateMemory diff
    else if diff < 0 then w.freeMemory (-diff)
    else w

/-- `MemoryWorker.AdjustLoad(currentWorkerUsage, targetWorkerUsage)`:
2 s cooldown, percentage-to-bytes conversion, ±512 MiB bound on the
change relative to the currently *allocated* bytes, clamp into
`[0, 0.8 × totalMemory]`.  `vmTotal` models the `mem.VirtualMemory()`
re-read taken when `totalMemory == 0`. -/
def MemoryWorker.AdjustLoad (w : MemoryWorker) (vmTotal : Option ℤ)
    (now currentWorkerUsage targetWorkerUsage : ℚ) : MemoryWorker :=
  if !w.running then w
  else if now - w.lastAdjustTime < 2000 then w
  else
    let refetch := w.totalMemory = 0
    let totalMemory : ℤ :=
      if refetch then
        match vmTotal with
        | some t => t
        | none => 16 * 1024 * 1024 * 1024
      else w.totalMemory
    let w1 :=
      if refetch then
        match vmTotal with
        | some t => { w with totalMemory := t }
        | none => w
      else w
    let targetBytes := goTrunc ((totalMemory : ℚ) * targetWorkerUsage / 100)
    let maxAdjust : ℤ := 512 * 1024 * 1024
    let currentBytes := w.getCurrentAllocatedSize
    let diff := targetBytes - currentBytes
    let targetBytes1 :=
      if diff > maxAdjust then currentBytes + maxAdjust
      else if diff < -maxAdjust then currentBytes - maxAdjust
      else targetBytes
    let targetBytes2 := if targetBytes1 < 0 then 0 else targetBytes1
    let maxTarget : ℤ := goTrunc ((totalMemory : ℚ) * (8/10))
    let targetBytes3 := if targetBytes2 > maxTarget then maxTarget else targetBytes2
    { w1 with targetSize := targetBytes3, lastAdjustTime := now }

/-- `MemoryWorker.GetUsage`: `allocated / totalMemory × 100`, top-clamped
at 100; 0 when not running, 0 when `totalMemory == 0`. -/
def MemoryWorker.GetUsage (w : MemoryWorker) : ℚ :=
  if !w.running then 0
  else
    let allocatedSize := w.getCurrentAllocatedSize
    if w.totalMemory = 0 then 0
    else
      let usage := (allocatedSize : ℚ) / (w.totalMemory : ℚ) * 100
      if usage > 100 then 100 else usage

/-- `MemoryWorker.IsRunning`. -/
def MemoryWorker.IsRunning (w : MemoryWorker) : Bool := w.running

/-- `MemoryWorker.GetAllocatedSize`. -/
def MemoryWorker.GetAllocatedSize (w : MemoryWorker) : ℤ :=
  w.getCurrentAllocatedSize

/-- `MemoryWorker.GetTargetSize`. -/
def MemoryWorker.GetTargetSize (w : MemoryWorker) : ℤ := w.targetSize

/-- `MemoryWorker.SetTotalMemory`. -/
def MemoryWorker.SetTotalMemory (w : MemoryWorker) (total : ℤ) : MemoryWorker :=
  { w with totalMemory := total }

/-- `MemoryWorker.SetTargetSize`: clamp into `[0, 0.8 × totalMemory]`. -/
def MemoryWorker.SetTargetSize (w : MemoryWorker) (size : ℤ) : MemoryWorker :=
  let s1 := if size < 0 then 0 else size
  let maxTarget := goTrunc ((w.totalMemory : ℚ) * (8/10))
  let s2 := if s1 > maxTarget then maxTarget else s1
  { w with targetSize := s2 }

/-- `MemoryWorker.GetChunkCount`. -/
def MemoryWorker.GetChunkCount (w : MemoryWorker) : ℕ := w.allocatedMem.length

/-- `MemoryWorker.ClearMemory`. -/
def MemoryWorker.ClearMemory (w : MemoryWorker) : MemoryWorker :=
  { w with allocatedMem := [], targetSize := 0 }

/-- One public operation / internal tick of the memory worker. -/
inductive MemOp where
  | start : MemOp
  | stop : MemOp
  | tick : MemOp
  | adjustLoad (vmTotal : Option ℤ) (now currentUsage targetUsage : ℚ) : MemOp
  | setTargetSize (size : ℤ) : MemOp
  | setTotalMemory (total : ℤ) : MemOp
  | clearMemory : MemOp

/-- Apply one operation to a memory worker state. -/
def memApply (w : MemoryWorker) : MemOp → MemoryWorker
  | MemOp.start => w.Start
  | MemOp.stop => w.Stop
  | MemOp.tick => w.tick
  | MemOp.adjustLoad vm now c t => w.AdjustLoad vm now c t
  | MemOp.setTargetSize s => w.SetTargetSize s
  | MemOp.setTotalMemory t => w.SetTotalMemory t
  | MemOp.clearMemory => w.ClearMemory

/-- Run a sequence of operations from a starting state. -/
def memRun (w : MemoryWorker) : List MemOp → MemoryWorker
  | [] => w
  | op :: rest => memRun (memApply w op) rest

/-! ## Controller loop (`main.go` ticker body)

The `for { select { case <-ticker.C: ... } }` body of `main`, for the
`versionValid && cpuWorker != nil && memWorker != nil` configuration
(both workers constructed).  Sampling the monitors is external: each
tick input carries `Option ℚ` samples, `none` modelling a sampler
error.  Every externally visible action of one tick — worker calls and
notifier calls — is recorded as an `Event`, in program order. -/

/-- Externally visible actions of one controller tick.  The notifier
package (`notify`) offers `NotifyCPUWorkStart/Stop`, `NotifyMemWorkStart/Stop`,
`NotifyError` and `NotifyInfo`; `notifySampleFailed` stands for the
`SampleFailed` event of the Notification Sink interface, so that its
absence from a tick's event list is expressible. -/
inductive Event where
  | callCPUStart : Event
  | callCPUStop : Event
  | callCPUAdjust : Event
  | callMemStart : Event
  | callMemStop : Event
  | callMemAdjust : Event
  | notifyCPUWorkStart (threshold : ℤ) : Event
  | notifyCPUWorkStop : Event
  | notifyMemWorkStart (threshold : ℤ) : Event
  | notifyMemWorkStop : Event
  | notifySampleFailed : Event
  | logCPUSampleError : Event
  | logMemSampleError : Event

/-- `true` on the worker-call events (`Start`/`Stop`/`AdjustLoad`). -/
def Event.isWorkerCall : Event → Bool
  | Event.callCPUStart => true
  | Event.callCPUStop => true
  | Event.callCPUAdjust => true
  | Event.callMemStart => true
  | Event.callMemStop => true
  | Event.callMemAdjust => true
  | _ => false

/-- `true` on the Notification Sink events. -/
def Event.isNotification : Event → Bool
  | Event.notifyCPUWorkStart _ => true
  | Event.notifyCPUWorkStop => true
  | Event.notifyMemWorkStart _ => true
  | Event.notifyMemWorkStop => true
  | Event.notifySampleFailed => true
  | _ => false

/-- `true` exactly on `callCPUStart`. -/
def Event.isCPUStartCall : Event → Bool
  | Event.callCPUStart => true
  | _ => false

/-- `true` exactly on `callCPUStop`. -/
def Event.isCPUStopCall : Event → Bool
  | Event.callCPUStop => true
  | _ => false

/-- `true` exactly on `callMemStart`. -/
def Event.isMemStartCall : Event → Bool
  | Event.callMemStart => true
  | _ => false

/-- `true` exactly on `callMemStop`. -/
def Event.isMemStopCall : Event → Bool
  | Event.callMemStop => true
  | _ => false

/-- The configuration the loop reads (a slice of `config.Config` plus
the ambient machine parameters). -/
structure CtrlConfig where
  cpuThreshold : ℤ
  memThreshold : ℤ
  showWindow : Bool
  numCPU : ℕ
  /-- ambient `mem.VirtualMemory()` result for a mid-run re-read -/
  vmTotal : Option ℤ

/-- The loop-carried state of `main`'s ticker body. -/
structure CtrlState where
  cpu : CPUWorker
  mem : MemoryWorker
  lastCPUWorkerState : Bool
  lastMemWorkerState : Bool

/-- One tick input: the wall clock and the two monitor samples
(`none` = the monitor returned an error). -/
structure TickInput where
  now : ℚ
  cpuSample : Option ℚ
  memSample : Option ℚ

/-- The CPU branch of the tick body: edge-triggered `Start`/`Stop` plus
the conditional `AdjustLoad`, given the already-computed self-usage
`cpuWorkerUsage` and external usage `otherCPUUsage`. -/
def ctrlCPUPhase (cfg : CtrlConfig) (now : ℚ) (cpu : CPUWorker) (lastState : Bool)
    (cpuWorkerUsage otherCPUUsage : ℚ) : CPUWorker × Bool × List Event :=
  let shouldCPUWork : Bool := decide (otherCPUUsage < (cfg.cpuThreshold : ℚ))
  let r :=
    if shouldCPUWork ≠ lastState then
      if shouldCPUWork then
        (cpu.Start, shouldCPUWork,
          [Event.callCPUStart, Event.notifyCPUWorkStart cfg.cpuThreshold])
      else
        (cpu.Stop, shouldCPUWork,
          [Event.callCPUStop, Event.notifyCPUWorkStop])
    else (cpu, lastState, ([] : List Event))
  if shouldCPUWork then
    let t0 := (cfg.cpuThreshold : ℚ) - otherCPUUsage
    let t1 := if t0 < 0 then 0 else t0
    let targetCPUWorkerUsage := if t1 > 100 then 100 else t1
    (r.1.AdjustLoad now cpuWorkerUsage targetCPUWorkerUsage, r.2.1,
      r.2.2 ++ [Event.callCPUAdjust])
  else r

/-- The memory branch of the tick body (cap 80 instead of 100). -/
def ctrlMemPhase (cfg : CtrlConfig) (now : ℚ) (mem : MemoryWorker) (lastState : Bool)
    (memWorkerUsage otherMemUsage : ℚ) : MemoryWorker × Bool × List Event :=
  let shouldMemWork : Bool := decide (otherMemUsage < (cfg.memThreshold : ℚ))
  let r :=
    if shouldMemWork ≠ lastState then
      if shouldMemWork then
        (mem.Start, shouldMemWork,
          [Event.callMemStart, Event.notifyMemWorkStart cfg.memThreshold])
      else
        (mem.Stop, shouldMemWork,
          [Event.callMemStop, Event.notifyMemWorkStop])
    else (mem, lastState, ([] : List Event))
  if shouldMemWork then
    let t0 := (cfg.memThreshold : ℚ) - otherMemUsage
    let t1 := if t0 < 0 then 0 else t0
    let targetMemWorkerUsage := if t1 > 80 then 80 else t1
    (r.1.AdjustLoad cfg.vmTotal now memWorkerUsage targetMemWorkerUsage, r.2.1,
      r.2.2 ++ [Event.callMemAdjust])
  else r

/-- One full controller tick.  A failed CPU or memory sample is logged to
the console when `showWindow` is set and skips the tick (`continue`). -/
def ctrlTick (cfg : CtrlConfig) (s : CtrlState) (i : TickInput) :
    CtrlState × List Event :=
  match i.cpuSample with
  | none => (s, if cfg.showWindow then [Event.logCPUSampleError] else [])
  | some cpuUsage =>
    match i.memSample with
    | none => (s, if cfg.showWindow then [Event.logMemSampleError] else [])
    | some memUsage =>
      let cpuWorkerUsage := s.cpu.GetUsage cfg.numCPU
      let memWorkerUsage := s.mem.GetUsage
      let otherCPUUsage := max 0 (cpuUsage - cpuWorkerUsage)
      let otherMemUsage := max 0 (memUsage - memWorkerUsage)
      let rc :=
        ctrlCPUPhase cfg i.now s.cpu s.lastCPUWorkerState cpuWorkerUsage otherCPUUsage
      let rm :=
        ctrlMemPhase cfg i.now s.mem s.lastMemWorkerState memWorkerUsage otherMemUsage
      ({ cpu := rc.1, mem := rm.1,
         lastCPUWorkerState := rc.2.1, lastMemWorkerState := rm.2.1 },
       rc.2.2 ++ rm.2.2)

/-- Run the controller over a list of tick inputs, collecting all events
in order. -/
def ctrlRun (cfg : CtrlConfig) (s : CtrlState) : List TickInput → CtrlState × List Event
  | [] => (s, [])
  | i :: rest =>
    ((ctrlRun cfg (ctrlTick cfg s i).1 rest).1,
      (ctrlTick cfg s i).2 ++ (ctrlRun cfg (ctrlTick cfg s i).1 rest).2)

/-- The external CPU usage a tick computes from a successful CPU sample
`cpuUsage` at state `s`: `max 0 (cpuUsage - self-estimate)`. -/
def cpuExternal (cfg : CtrlConfig) (s : CtrlState) (cpuUsage : ℚ) : ℚ :=
  max 0 (cpuUsage - s.cpu.GetUsage cfg.numCPU)

/-- The external memory usage a tick computes from a successful memory
sample `memUsage` at state `s`. -/
def memExternal (s : CtrlState) (memUsage : ℚ) : ℚ :=
  max 0 (memUsage - s.mem.GetUsage)

/-- Both samples of every input in the list succeed, and the external
CPU usage computed at each successive controller state stays strictly
below the CPU threshold. -/
def cpuAllBelow (cfg : CtrlConfig) : CtrlState → List TickInput → Prop
  | _, [] => True
  | s, i :: rest =>
    (∃ cu mu, i.cpuSample = some cu ∧ i.memSample = some mu ∧
      cpuExternal cfg s cu < (cfg.cpuThreshold : ℚ)) ∧
    cpuAllBelow cfg (ctrlTick cfg s i).1 rest

/-! ## Helper lemmas -/

/-- The two-sided `if` clamp the CPU worker uses is the `[0,100]` clamp. -/
theorem intClamp_eq_max_min (x : ℤ) :
    (if x < 0 then 0 else if x > 100 then 100 else x) = max 0 (min 100 x) := by
  split_ifs <;> omega

/-! ## C9 — initial and reset intensity -/

/-- C9: a freshly constructed CPU worker has intensity exactly 30 (not 0),
`Start()` preserves it (so the first duty cycle burns at 30%:
3000 µs work / 7000 µs sleep per 10000 µs cycle), and `ResetIntensity()`
restores exactly 30. -/
theorem cpu_initial_intensity_thirty (threshold : ℤ) (numCPU : ℕ) (now : ℚ)
    (w : CPUWorker) :
    (NewCPUWorker threshold numCPU now).intensity = 30 ∧
    ((NewCPUWorker threshold numCPU now).Start).intensity = 30 ∧
    (30 : ℤ) ≠ 0 ∧
    (w.ResetIntensity).intensity = 30 ∧
    laneWorkDuration 30 = 3000 ∧
    laneSleepDuration 30 = 7000 := by
  refine ⟨rfl, ?_, by decide, rfl, by decide, by decide⟩
  simp [NewCPUWorker, CPUWorker.Start]

/-! ## C5 — open-loop usage estimate -/

/-- C5: on a running CPU worker `GetUsage()` is exactly
`(intensity/100) × (workers/numCPU) × 100` top-clamped at 100 (an
open-loop estimate); on a stopped worker it is 0. -/
theorem cpu_getUsage_open_loop_estimate (w : CPUWorker) (numCPU : ℕ)
    (h : 0 < numCPU) :
    (w.running = true →
      w.GetUsage numCPU =
        min (((w.intensity : ℚ) / 100) * ((w.workers : ℚ) / (numCPU : ℚ)) * 100) 100) ∧
    (w.running = false → w.GetUsage numCPU = 0) := by
  constructor
  · intro hr
    have hn : ((numCPU : ℚ)) ≠ 0 := by
      have : (0 : ℚ) < (numCPU : ℚ) := by exact_mod_cast h
      exact ne_of_gt this
    unfold CPUWorker.GetUsage
    rw [hr]
    simp only [Bool.not_true, Bool.false_eq_true, if_false]
    have hform : (w.intensity : ℚ) / 100 * (w.workers : ℚ) * 100 / (numCPU : ℚ) =
        (w.intensity : ℚ) / 100 * ((w.workers : ℚ) / (numCPU : ℚ)) * 100 := by
      field_simp
      ring
    rw [hform]
    split_ifs with hgt
    · exact (min_eq_right hgt.le).symm
    · exact (min_eq_left (not_lt.mp hgt)).symm
  · intro hr
    unfold CPUWorker.GetUsage
    rw [hr]
    rfl

/-- Witness for C5 at a concrete running worker: intensity 40, 8 lanes on
8 logical cores gives a usage estimate of exactly 40. -/
theorem cpu_getUsage_open_loop_estimate_witness :
    (0 : ℕ) < 8 ∧
    ({ threshold := 70, running := true, workers := 8, intensity := 40,
       lastAdjustTime := 0 : CPUWorker }).GetUsage 8 = 40 := by
  have h := cpu_getUsage_open_loop_estimate
    { threshold := 70, running := true, workers := 8, intensity := 40,
      lastAdjustTime := 0 } 8 (by decide)
  refine ⟨by decide, ?_⟩
  rw [h.1 rfl]
  norm_num

/-! ## C1 — tiered-step CPU load adjustment -/

/-- The tier table of the claim, as a step to be added to the intensity. -/
def tierStep (diff : ℚ) : ℤ :=
  if diff > 20 then 10
  else if diff > 10 then 5
  else if diff > 5 then 3
  else if diff > 2 then 2
  else if diff > 1/2 then 1
  else if diff < -20 then -10
  else if diff < -10 then -5
  else if diff < -5 then -3
  else if diff < -2 then -2
  else if diff < -(1/2) then -1
  else 0

/-- The source's branch-per-tier update chain equals
`current intensity + tier step`. -/
theorem tierChain_eq (cur : ℤ) (diff : ℚ) :
    (if diff > 20 then cur + 10
     else if diff > 10 then cur + 5
     else if diff > 5 then cur + 3
     else if diff > 2 then cur + 2
     else if diff > 1/2 then cur + 1
     else if diff < -20 then cur - 10
     else if diff < -10 then cur - 5
     else if diff < -5 then cur - 3
     else if diff < -2 then cur - 2
     else if diff < -(1/2) then cur - 1
     else cur) = cur + tierStep diff := by
  unfold tierStep
  by_cases h1 : diff > 20
  · simp [h1]
  by_cases h2 : diff > 10
  · simp [h1, h2]
  by_cases h3 : diff > 5
  · simp [h1, h2, h3]
  by_cases h4 : diff > 2
  · simp [h1, h2, h3, h4]
  by_cases h5 : diff > (2:ℚ)⁻¹
  · simp [h1, h2, h3, h4, h5]
  by_cases h6 : diff < -20
  · simp [h1, h2, h3, h4, h5, h6]
    ring
  by_cases h7 : diff < -10
  · simp [h1, h2, h3, h4, h5, h6, h7]
    ring
  by_cases h8 : diff < -5
  · simp [h1, h2, h3, h4, h5, h6, h7, h8]
    ring
  by_cases h9 : diff < -2
  · simp [h1, h2, h3, h4, h5, h6, h7, h8, h9]
    ring
  by_cases h10 : diff < -(2:ℚ)⁻¹
  · simp [h1, h2, h3, h4, h5, h6, h7, h8, h9, h10]
    ring
  · simp [h1, h2, h3, h4, h5, h6, h7, h8, h9, h10]

/-- `AdjustLoad` on a non-running worker is the identity. -/
theorem adjustLoad_not_running (w : CPUWorker) (now selfU targetU : ℚ)
    (hr : w.running = false) : w.AdjustLoad now selfU targetU = w := by
  simp [CPUWorker.AdjustLoad, hr]

/-- `AdjustLoad` inside the 500 ms cooldown is the identity. -/
theorem adjustLoad_cooldown (w : CPUWorker) (now selfU targetU : ℚ)
    (ht : now - w.lastAdjustTime < 500) : w.AdjustLoad now selfU targetU = w := by
  cases hr : w.running <;> simp [CPUWorker.AdjustLoad, hr, ht]

/-- The accepted-adjustment path of `AdjustLoad`, in closed form. -/
theorem adjustLoad_active_eq (w : CPUWorker) (now selfU targetU : ℚ)
    (hr : w.running = true) (ht : ¬ (now - w.lastAdjustTime < 500)) :
    w.AdjustLoad now selfU targetU =
      { w with
        intensity := max 0 (min 100 (w.intensity + tierStep (targetU - selfU))),
        lastAdjustTime := now } := by
  unfold CPUWorker.AdjustLoad
  rw [hr]
  simp only [Bool.not_true, Bool.false_eq_true, if_false, if_neg ht]
  rw [tierChain_eq, intClamp_eq_max_min]

/-- C1: `AdjustLoad(self, target)` is a no-op unless the worker is running
and at least 500 ms have elapsed since the last accepted adjustment;
otherwise, with `error = target − self`, the new intensity is the old one
plus the tiered step (±10/±5/±3/±2/±1 at thresholds 20/10/5/2/0.5, zero
when `|error| ≤ 0.5`), clamped into `[0,100]`, and the cooldown clock is
re-armed. -/
theorem cpu_adjustLoad_tiered_step (w : CPUWorker) (now selfU targetU : ℚ) :
    (w.running = false → w.AdjustLoad now selfU targetU = w) ∧
    (now - w.lastAdjustTime < 500 → w.AdjustLoad now selfU targetU = w) ∧
    (w.running = true → 500 ≤ now - w.lastAdjustTime →
      (w.AdjustLoad now selfU targetU).intensity =
        max 0 (min 100 (w.intensity + tierStep (targetU - selfU))) ∧
      (abs (targetU - selfU) ≤ 1/2 → tierStep (targetU - selfU) = 0) ∧
      (w.AdjustLoad now selfU targetU).lastAdjustTime = now ∧
      (w.AdjustLoad now selfU targetU).running = w.running ∧
      0 ≤ (w.AdjustLoad now selfU targetU).intensity ∧
      (w.AdjustLoad now selfU targetU).intensity ≤ 100) := by
  refine ⟨?_, ?_, ?_⟩
  · intro hr
    exact adjustLoad_not_running w now selfU targetU hr
  · intro ht
    exact adjustLoad_cooldown w now selfU targetU ht
  · intro hr ht
    have hts : ¬ (now - w.lastAdjustTime < 500) := not_lt.mpr ht
    have hbody := adjustLoad_active_eq w now selfU targetU hr hts
    refine ⟨by rw [hbody], ?_, by rw [hbody], by rw [hbody], ?_, ?_⟩
    · intro habs
      rw [abs_le] at habs
      unfold tierStep
      have h1 : ¬ (targetU - selfU > 20) := by
        simp only [gt_iff_lt, not_lt]
        linarith [habs.2]
      have h2 : ¬ (targetU - selfU > 10) := by
        simp only [gt_iff_lt, not_lt]
        linarith [habs.2]
      have h3 : ¬ (targetU - selfU > 5) := by
        simp only [gt_iff_lt, not_lt]
        linarith [habs.2]
      have h4 : ¬ (targetU - selfU > 2) := by
        simp only [gt_iff_lt, not_lt]
        linarith [habs.2]
      have h5 : ¬ (targetU - selfU > (2:ℚ)⁻¹) := by
        simp only [gt_iff_lt, not_lt]
        rw [inv_eq_one_div]
        exact habs.2
      have h6 : ¬ (targetU - selfU < -20) := by linarith [habs.1]
      have h7 : ¬ (targetU - selfU < -10) := by linarith [habs.1]
      have h8 : ¬ (targetU - selfU < -(5:ℚ)) := by linarith [habs.1]
      have h9 : ¬ (targetU - selfU < -(2:ℚ)) := by linarith [habs.1]
      have h10 : ¬ (targetU - selfU < -(2:ℚ)⁻¹) := by
        simp only [not_lt]
        rw [inv_eq_one_div]
        exact habs.1
      simp [h1, h2, h3, h4, h5, h6, h7, h8, h9, h10]
    · rw [hbody]
      simp only
      omega
    · rw [hbody]
      simp only
      omega

/-- Witness for C1: a running worker at intensity 30, adjusted 600 ms
after the last accepted adjustment with error 25, moves to 40 and re-arms
the cooldown clock. -/
theorem cpu_adjustLoad_tiered_step_witness :
    ({ threshold := 70, running := true, workers := 8, intensity := 30,
       lastAdjustTime := 0 : CPUWorker }).running = true ∧
    (500 : ℚ) ≤ 600 - 0 ∧
    (({ threshold := 70, running := true, workers := 8, intensity := 30,
        lastAdjustTime := 0 : CPUWorker }).AdjustLoad 600 5 30).intensity = 40 ∧
    (({ threshold := 70, running := true, workers := 8, intensity := 30,
        lastAdjustTime := 0 : CPUWorker }).AdjustLoad 600 5 30).lastAdjustTime = 600 := by
  have h := (cpu_adjustLoad_tiered_step
    { threshold := 70, running := true, workers := 8, intensity := 30,
      lastAdjustTime := 0 } 600 5 30).2.2 rfl (by norm_num)
  refine ⟨rfl, by norm_num, ?_, h.2.2.1⟩
  rw [h.1]
  have hstep : tierStep ((30 : ℚ) - 5) = 10 := by
    unfold tierStep
    norm_num
  rw [hstep]
  decide

/-! ## C8 — intensity stays in [0,100] -/

/-- `AdjustLoad` either leaves the intensity untouched (no-op path) or
stores a `[0,100]`-clamped value. -/
theorem adjust_intensity_cases (w : CPUWorker) (now selfU targetU : ℚ) :
    (w.AdjustLoad now selfU targetU).intensity = w.intensity ∨
    (0 ≤ (w.AdjustLoad now selfU targetU).intensity ∧
      (w.AdjustLoad now selfU targetU).intensity ≤ 100) := by
  cases hr : w.running with
  | false =>
    left
    rw [adjustLoad_not_running w now selfU targetU hr]
  | true =>
    by_cases ht : now - w.lastAdjustTime < 500
    · left
      rw [adjustLoad_cooldown w now selfU targetU ht]
    · right
      rw [adjustLoad_active_eq w now selfU targetU hr ht]
      simp only
      omega

/-- Every single operation keeps the intensity inside `[0,100]`. -/
theorem cpuApply_intensity_bounds (w : CPUWorker) (op : CPUOp)
    (h0 : 0 ≤ w.intensity) (h1 : w.intensity ≤ 100) :
    0 ≤ (cpuApply w op).intensity ∧ (cpuApply w op).intensity ≤ 100 := by
  cases op with
  | start =>
    unfold cpuApply CPUWorker.Start
    split_ifs <;> exact ⟨h0, h1⟩
  | stop =>
    unfold cpuApply CPUWorker.Stop
    split_ifs <;> exact ⟨h0, h1⟩
  | setIntensity v =>
    unfold cpuApply CPUWorker.SetIntensity
    simp only
    split_ifs <;> omega
  | adjustLoad now c t =>
    rcases adjust_intensity_cases w now c t with h | h
    · unfold cpuApply
      rw [h]
      exact ⟨h0, h1⟩
    · exact h
  | resetIntensity =>
    unfold cpuApply CPUWorker.ResetIntensity
    exact ⟨by norm_num, by norm_num⟩

/-- C8: from construction (intensity 30) through any sequence of
`Start`/`Stop`/`SetIntensity`(any argument)/`AdjustLoad`(any floats)/
`ResetIntensity` operations, the CPU worker's intensity stays in
`[0,100]`. -/
theorem cpu_intensity_invariant (threshold : ℤ) (numCPU : ℕ) (now : ℚ)
    (ops : List CPUOp) :
    0 ≤ (cpuRun (NewCPUWorker threshold numCPU now) ops).intensity ∧
    (cpuRun (NewCPUWorker threshold numCPU now) ops).intensity ≤ 100 := by
  have key : ∀ (l : List CPUOp) (w : CPUWorker),
      0 ≤ w.intensity → w.intensity ≤ 100 →
      0 ≤ (cpuRun w l).intensity ∧ (cpuRun w l).intensity ≤ 100 := by
    intro l
    induction l with
    | nil =>
      intro w h0 h1
      exact ⟨h0, h1⟩
    | cons op rest ih =>
      intro w h0 h1
      have hstep := cpuApply_intensity_bounds w op h0 h1
      exact ih (cpuApply w op) hstep.1 hstep.2
  exact key ops (NewCPUWorker threshold numCPU now) (by norm_num [NewCPUWorker])
    (by norm_num [NewCPUWorker])

/-! ## Memory worker helper lemmas -/

theorem allocatedSum_nonneg (l : List Chunk) : 0 ≤ allocatedSum l := by
  induction l with
  | nil => simp [allocatedSum]
  | cons c rest ih =>
    unfold allocatedSum
    positivity

theorem allocatedSum_append (a b : List Chunk) :
    allocatedSum (a ++ b) = allocatedSum a + allocatedSum b := by
  induction a with
  | nil => simp [allocatedSum]
  | cons c rest ih =>
    simp only [List.cons_append, allocatedSum, List.append_eq, ih]
    ring

/-- `AdjustLoad` on a non-running memory worker is the identity. -/
theorem memAdjust_not_running (w : MemoryWorker) (vm : Option ℤ) (now c t : ℚ)
    (hr : w.running = false) : w.AdjustLoad vm now c t = w := by
  simp [MemoryWorker.AdjustLoad, hr]

/-- `AdjustLoad` inside the 2 s cooldown is the identity. -/
theorem memAdjust_cooldown (w : MemoryWorker) (vm : Option ℤ) (now c t : ℚ)
    (ht : now - w.lastAdjustTime < 2000) : w.AdjustLoad vm now c t = w := by
  cases hr : w.running <;> simp [MemoryWorker.AdjustLoad, hr, ht]

/-- `AdjustLoad` never touches the chunk list or the running flag. -/
theorem memAdjust_chunks_running (w : MemoryWorker) (vm : Option ℤ) (now c t : ℚ) :
    (w.AdjustLoad vm now c t).allocatedMem = w.allocatedMem ∧
    (w.AdjustLoad vm now c t).running = w.running := by
  cases hr : w.running
  · rw [memAdjust_not_running w vm now c t hr]
    exact ⟨rfl, hr⟩
  · by_cases ht : now - w.lastAdjustTime < 2000
    · rw [memAdjust_cooldown w vm now c t ht]
      exact ⟨rfl, hr⟩
    · unfold MemoryWorker.AdjustLoad
      rw [hr]
      simp only [Bool.not_true, Bool.false_eq_true, if_false, if_neg ht]
      by_cases hz : w.totalMemory = 0 <;> cases vm <;> simp [hz] <;> exact hr

/-- A tick on a stopped worker is a no-op (the `work` goroutine only
exists while running). -/
theorem memTick_not_running (w : MemoryWorker) (hr : w.running = false) :
    w.tick = w := by
  simp [MemoryWorker.tick, hr]

/-- The convergence tick never touches the running flag or the target. -/
theorem memTick_preserves (w : MemoryWorker) :
    (w.tick).running = w.running ∧ (w.tick).targetSize = w.targetSize := by
  unfold MemoryWorker.tick MemoryWorker.allocateMemory MemoryWorker.freeMemory
  dsimp only
  constructor <;> split_ifs <;> rfl

/-- After `Stop()` the worker is never running. -/
theorem memStop_running (w : MemoryWorker) : (w.Stop).running = false := by
  unfold MemoryWorker.Stop
  cases hr : w.running <;> simp [hr]

/-- `Stop()` on a worker that is not running is a complete no-op. -/
theorem memStop_not_running (w : MemoryWorker) (h : w.running = false) :
    w.Stop = w := by
  simp [MemoryWorker.Stop, h]

/-- Reachability invariant of the memory worker: whenever it is not
running, it holds no chunks (allocation happens only inside the
convergence tick of a running worker, and `Stop` clears the list). -/
theorem memApply_nre (w : MemoryWorker) (op : MemOp)
    (h : w.running = false → w.allocatedMem = []) :
    (memApply w op).running = false → (memApply w op).allocatedMem = [] := by
  cases op with
  | start =>
    unfold memApply MemoryWorker.Start
    split_ifs with hw
    · exact h
    · intro hc
      simp at hc
  | stop =>
    unfold memApply MemoryWorker.Stop
    split_ifs with hw
    · exact h
    · intro _
      rfl
  | tick =>
    cases hr : w.running
    · rw [memApply, memTick_not_running w hr]
      exact h
    · intro hfalse
      exfalso
      have := (memTick_preserves w).1
      rw [memApply] at hfalse
      rw [hfalse] at this
      rw [hr] at this
      exact Bool.false_ne_true this
  | adjustLoad vm now c t =>
    intro hfalse
    have hcr := memAdjust_chunks_running w vm now c t
    rw [memApply] at hfalse ⊢
    rw [hcr.1]
    apply h
    rw [← hcr.2]
    exact hfalse
  | setTargetSize s =>
    intro hfalse
    exact h hfalse
  | setTotalMemory t =>
    intro hfalse
    exact h hfalse
  | clearMemory =>
    intro _
    rfl

/-- The not-running-implies-empty invariant holds along every run. -/
theorem memRun_nre (ops : List MemOp) :
    ∀ w : MemoryWorker, (w.running = false → w.allocatedMem = []) →
      ((memRun w ops).running = false → (memRun w ops).allocatedMem = []) := by
  induction ops with
  | nil =>
    intro w h
    exact h
  | cons op rest ih =>
    intro w h
    exact ih (memApply w op) (memApply_nre w op h)

/-! ## C10 — stopped usage vs. allocated size -/

/-- C10: `GetUsage()` is 0 whenever the worker is not running, regardless
of the chunks held; `GetAllocatedSize()` unconditionally reports the exact
sum of held chunk sizes; hence `GetUsage() = 0` does not imply
`GetAllocatedSize() = 0`. -/
theorem mem_usage_vs_allocated (w : MemoryWorker) :
    (w.IsRunning = false → w.GetUsage = 0) ∧
    (w.GetAllocatedSize = allocatedSum w.allocatedMem) ∧
    (∃ v : MemoryWorker, v.IsRunning = false ∧ v.GetUsage = 0 ∧
      v.GetAllocatedSize ≠ 0) := by
  refine ⟨?_, rfl, ?_⟩
  · intro hr
    unfold MemoryWorker.IsRunning at hr
    unfold MemoryWorker.GetUsage
    rw [hr]
    rfl
  · refine ⟨{ threshold := 70, running := false,
              allocatedMem := [mkChunk 10485760], targetSize := 0,
              totalMemory := 17179869184, lastAdjustTime := 0 }, rfl, rfl, ?_⟩
    norm_num [MemoryWorker.GetAllocatedSize, MemoryWorker.getCurrentAllocatedSize,
      allocatedSum, mkChunk]

/-- Witness for C10 at the concrete stopped-but-holding state used in the
existential: usage 0 with 10 MiB still accounted. -/
theorem mem_usage_vs_allocated_witness :
    ({ threshold := 70, running := false, allocatedMem := [mkChunk 10485760],
       targetSize := 0, totalMemory := 17179869184,
       lastAdjustTime := 0 : MemoryWorker }).GetUsage = 0 ∧
    ({ threshold := 70, running := false, allocatedMem := [mkChunk 10485760],
       targetSize := 0, totalMemory := 17179869184,
       lastAdjustTime := 0 : MemoryWorker }).GetAllocatedSize = 10485760 := by
  have h := mem_usage_vs_allocated
    { threshold := 70, running := false, allocatedMem := [mkChunk 10485760],
      targetSize := 0, totalMemory := 17179869184, lastAdjustTime := 0 }
  refine ⟨h.1 rfl, ?_⟩
  rw [h.2.1]
  norm_num [allocatedSum, mkChunk]

/-! ## C6 — what Stop() guarantees -/

/-- C6 counterexample: `SetTargetSize` on a stopped worker survives
`Stop()`, because `Stop()` early-returns when the worker is not running —
so `Stop()` does *not* always leave a target size of 0. -/
theorem mem_stop_stale_target_counterexample :
    (memRun (NewMemoryWorker 70 (some 17179869184) 0)
      [MemOp.setTargetSize 1048576]).running = false ∧
    ((memRun (NewMemoryWorker 70 (some 17179869184) 0)
      [MemOp.setTargetSize 1048576]).Stop).targetSize = 1048576 ∧
    (1048576 : ℤ) ≠ 0 := by
  have hval : (memRun (NewMemoryWorker 70 (some 17179869184) 0)
      [MemOp.setTargetSize 1048576]) =
      { threshold := 70, running := false, allocatedMem := [],
        targetSize := 1048576, totalMemory := 17179869184,
        lastAdjustTime := 0 } := by
    show ((NewMemoryWorker 70 (some 17179869184) 0).SetTargetSize 1048576) = _
    unfold NewMemoryWorker MemoryWorker.SetTargetSize goTrunc
    norm_num
  rw [hval]
  refine ⟨rfl, ?_, by decide⟩
  rfl

/-- C6 (amended): from any reachable state, `Stop()` always results in
`GetAllocatedSize() = 0` and `GetUsage() = 0` (whether called while
running, while already stopped, or twice in a row — the second
consecutive `Stop` changes nothing), and a stopped worker always reports
zero usage; but only a `Stop()` of a *running* worker resets the target
size to 0 — `Stop()` on an already-stopped worker is a complete no-op and
preserves a target previously stored with `SetTargetSize`. -/
theorem mem_stop_drains_resources (t : ℤ) (vm : Option ℤ) (now : ℚ)
    (ops : List MemOp) :
    ((memRun (NewMemoryWorker t vm now) ops).Stop).GetAllocatedSize = 0 ∧
    ((memRun (NewMemoryWorker t vm now) ops).Stop).GetUsage = 0 ∧
    (((memRun (NewMemoryWorker t vm now) ops).Stop).Stop =
      (memRun (NewMemoryWorker t vm now) ops).Stop) ∧
    ((memRun (NewMemoryWorker t vm now) ops).running = true →
      ((memRun (NewMemoryWorker t vm now) ops).Stop).targetSize = 0) ∧
    ((memRun (NewMemoryWorker t vm now) ops).IsRunning = false →
      (memRun (NewMemoryWorker t vm now) ops).GetUsage = 0) := by
  set w := memRun (NewMemoryWorker t vm now) ops with hw
  have hinv : w.running = false → w.allocatedMem = [] :=
    memRun_nre ops (NewMemoryWorker t vm now) (fun _ => rfl)
  have hrun : (w.Stop).running = false := memStop_running w
  have hchunks : (w.Stop).allocatedMem = [] := by
    unfold MemoryWorker.Stop
    cases hr : w.running
    · simp only [Bool.not_false, if_true]
      exact hinv hr
    · simp
  refine ⟨?_, ?_, ?_, ?_, ?_⟩
  · unfold MemoryWorker.GetAllocatedSize MemoryWorker.getCurrentAllocatedSize
    rw [hchunks]
    rfl
  · unfold MemoryWorker.GetUsage
    rw [hrun]
    rfl
  · exact memStop_not_running (w.Stop) hrun
  · intro hr
    unfold MemoryWorker.Stop
    rw [hr]
    simp
  · intro hr
    unfold MemoryWorker.IsRunning at hr
    unfold MemoryWorker.GetUsage
    rw [hr]
    rfl

/-- Witness for C6: `Start` then `Stop` leaves allocated 0, usage 0 and
target 0. -/
theorem mem_stop_drains_resources_witness :
    (memRun (NewMemoryWorker 70 (some 17179869184) 0) [MemOp.start]).running
      = true ∧
    ((memRun (NewMemoryWorker 70 (some 17179869184) 0)
      [MemOp.start]).Stop).GetAllocatedSize = 0 ∧
    ((memRun (NewMemoryWorker 70 (some 17179869184) 0)
      [MemOp.start]).Stop).GetUsage = 0 ∧
    ((memRun (NewMemoryWorker 70 (some 17179869184) 0)
      [MemOp.start]).Stop).targetSize = 0 := by
  have h := mem_stop_drains_resources 70 (some 17179869184) 0 [MemOp.start]
  have hrun : (memRun (NewMemoryWorker 70 (some 17179869184) 0)
      [MemOp.start]).running = true := rfl
  exact ⟨hrun, h.1, h.2.1, h.2.2.2.1 hrun⟩

/-! ## C2 — memory AdjustLoad: delta bound and ceiling -/

/-- The accepted-adjustment path of the memory `AdjustLoad`, in closed
form (no re-read of total memory needed when `totalMemory ≠ 0`). -/
theorem memAdjust_active_eq (w : MemoryWorker) (vm : Option ℤ) (now c t : ℚ)
    (hr : w.running = true) (ht : ¬ (now - w.lastAdjustTime < 2000))
    (hz : ¬ (w.totalMemory = 0)) :
    w.AdjustLoad vm now c t =
      { w with
        targetSize :=
          (let targetBytes := goTrunc ((w.totalMemory : ℚ) * t / 100)
           let maxAdjust : ℤ := 512 * 1024 * 1024
           let currentBytes := w.getCurrentAllocatedSize
           let diff := targetBytes - currentBytes
           let targetBytes1 :=
             if diff > maxAdjust then currentBytes + maxAdjust
             else if diff < -maxAdjust then currentBytes - maxAdjust
             else targetBytes
           let targetBytes2 := if targetBytes1 < 0 then 0 else targetBytes1
           let maxTarget : ℤ := goTrunc ((w.totalMemory : ℚ) * (8/10))
           if targetBytes2 > maxTarget then maxTarget else targetBytes2),
        lastAdjustTime := now } := by
  unfold MemoryWorker.AdjustLoad
  rw [hr]
  simp only [Bool.not_true, Bool.false_eq_true, if_false, if_neg ht, if_neg hz]
  rw [hr]

/-- C2 counterexample: with 16 GiB total memory, `Start`, then
`SetTargetSize(600 MiB)` (stored target 600 MiB, nothing allocated yet),
a later accepted `AdjustLoad(0, 0%)` snaps the stored target straight to
0 — a 600 MiB move, larger than the 512 MiB maximum delta.  The delta
bound is enforced against the currently *allocated* bytes, not against
the current target. -/
theorem mem_adjustLoad_target_jump_counterexample :
    (memRun (NewMemoryWorker 70 (some 17179869184) 0)
      [MemOp.start, MemOp.setTargetSize 629145600]).running = true ∧
    (2000 : ℚ) ≤ 3000 -
      (memRun (NewMemoryWorker 70 (some 17179869184) 0)
        [MemOp.start, MemOp.setTargetSize 629145600]).lastAdjustTime ∧
    (memRun (NewMemoryWorker 70 (some 17179869184) 0)
      [MemOp.start, MemOp.setTargetSize 629145600]).targetSize = 629145600 ∧
    ((memRun (NewMemoryWorker 70 (some 17179869184) 0)
      [MemOp.start, MemOp.setTargetSize 629145600]).AdjustLoad
        none 3000 0 0).targetSize = 0 ∧
    ¬ (|((memRun (NewMemoryWorker 70 (some 17179869184) 0)
      [MemOp.start, MemOp.setTargetSize 629145600]).AdjustLoad
        none 3000 0 0).targetSize -
      (memRun (NewMemoryWorker 70 (some 17179869184) 0)
        [MemOp.start, MemOp.setTargetSize 629145600]).targetSize|
      ≤ 512 * 1024 * 1024) := by
  have hval : memRun (NewMemoryWorker 70 (some 17179869184) 0)
      [MemOp.start, MemOp.setTargetSize 629145600] =
      { threshold := 70, running := true, allocatedMem := [],
        targetSize := 629145600, totalMemory := 17179869184,
        lastAdjustTime := 0 } := by
    show ((NewMemoryWorker 70 (some 17179869184) 0).Start).SetTargetSize
        629145600 = _
    unfold NewMemoryWorker MemoryWorker.Start MemoryWorker.SetTargetSize goTrunc
    norm_num
  rw [hval]
  have hadj : ({ threshold := 70, running := true, allocatedMem := [],
                 targetSize := 629145600, totalMemory := 17179869184,
                 lastAdjustTime := 0 : MemoryWorker }).AdjustLoad none 3000 0 0 =
      { threshold := 70, running := true, allocatedMem := [],
        targetSize := 0, totalMemory := 17179869184,
        lastAdjustTime := 3000 } := by
    rw [memAdjust_active_eq _ none 3000 0 0 rfl (by norm_num) (by norm_num)]
    unfold MemoryWorker.getCurrentAllocatedSize allocatedSum goTrunc
    norm_num
  rw [hadj]
  norm_num

/-- C2 (amended): an accepted memory `AdjustLoad` call moves the stored
target by at most 512 MiB relative to the *currently allocated* bytes
(not relative to the previous target, which can be further away), and the
resulting target is never negative and never exceeds
`⌊0.8 × totalSystemMemory⌋` regardless of the requested percentage,
provided the allocation itself is within that ceiling. -/
theorem mem_adjustLoad_delta_and_ceiling (w : MemoryWorker) (vm : Option ℤ)
    (now c t : ℚ)
    (hr : w.running = true) (ht : ¬ (now - w.lastAdjustTime < 2000))
    (hz : ¬ (w.totalMemory = 0))
    (hceil : allocatedSum w.allocatedMem ≤ goTrunc ((w.totalMemory : ℚ) * (8/10))) :
    0 ≤ (w.AdjustLoad vm now c t).targetSize ∧
    (w.AdjustLoad vm now c t).targetSize ≤ goTrunc ((w.totalMemory : ℚ) * (8/10)) ∧
    |(w.AdjustLoad vm now c t).targetSize - allocatedSum w.allocatedMem|
      ≤ 512 * 1024 * 1024 := by
  have hA : 0 ≤ allocatedSum w.allocatedMem := allocatedSum_nonneg _
  rw [memAdjust_active_eq w vm now c t hr ht hz]
  simp only [abs_le]
  unfold MemoryWorker.getCurrentAllocatedSize
  split_ifs <;> omega

/-- Witness for C2 at a concrete accepted call: fresh running worker with
16 GiB total, nothing allocated, requesting 95% — the new target is
512 MiB (the delta bound), within all three bounds. -/
theorem mem_adjustLoad_delta_and_ceiling_witness :
    ({ threshold := 70, running := true, allocatedMem := [],
       targetSize := 0, totalMemory := 17179869184,
       lastAdjustTime := 0 : MemoryWorker }).running = true ∧
    ¬ ((3000 : ℚ) - 0 < 2000) ∧
    ¬ ((17179869184 : ℤ) = 0) ∧
    allocatedSum ([] : List Chunk) ≤ goTrunc ((17179869184 : ℚ) * (8/10)) ∧
    0 ≤ (({ threshold := 70, running := true, allocatedMem := [],
            targetSize := 0, totalMemory := 17179869184,
            lastAdjustTime := 0 : MemoryWorker }).AdjustLoad
          none 3000 0 95).targetSize ∧
    |(({ threshold := 70, running := true, allocatedMem := [],
         targetSize := 0, totalMemory := 17179869184,
         lastAdjustTime := 0 : MemoryWorker }).AdjustLoad
          none 3000 0 95).targetSize - 0|
      ≤ 512 * 1024 * 1024 := by
  have h := mem_adjustLoad_delta_and_ceiling
    { threshold := 70, running := true, allocatedMem := [],
      targetSize := 0, totalMemory := 17179869184, lastAdjustTime := 0 }
    none 3000 0 95 rfl (by norm_num) (by norm_num)
    (by
      unfold allocatedSum goTrunc
      norm_num)
  refine ⟨rfl, by norm_num, by norm_num, ?_, h.1, ?_⟩
  · unfold allocatedSum goTrunc
    norm_num
  · have h3 := h.2.2
    simpa [allocatedSum] using h3

/-! ## C7 — convergence tick: chunked allocation, LIFO free, bounded total -/

/-- `allocatedSum` of `n` copies of one chunk. -/
theorem allocatedSum_replicate (n : ℕ) (c : Chunk) :
    allocatedSum (List.replicate n c) = (n : ℤ) * (c.len : ℤ) := by
  induction n with
  | zero => simp [allocatedSum]
  | succ k ih =>
    rw [List.replicate_succ]
    show (c.len : ℤ) + allocatedSum (List.replicate k c) = _
    rw [ih]
    push_cast
    ring

/-- `allocatedSum` of a singleton. -/
theorem allocatedSum_singleton (c : Chunk) : allocatedSum [c] = (c.len : ℤ) := by
  simp [allocatedSum]

/-- `allocatedSum` is invariant under reversal. -/
theorem allocatedSum_reverse (l : List Chunk) :
    allocatedSum l.reverse = allocatedSum l := by
  induction l with
  | nil => rfl
  | cons c rest ih =>
    rw [List.reverse_cons, allocatedSum_append, ih, allocatedSum_singleton]
    show _ = (c.len : ℤ) + allocatedSum rest
    ring

/-- `mkChunk` length. -/
theorem mkChunk_len (n : ℕ) : (mkChunk n).len = n := rfl

/-- Every chunk the allocator builds is committed at the 4096-byte
stride: offset `j` with `j % 4096 = 0` holds `byte(j % 256)`. -/
theorem mkChunk_touched (n j : ℕ) (h : j % 4096 = 0) :
    (mkChunk n).byteAt j = j % 256 := by
  simp [mkChunk, h]

/-- Once enough has been freed, `freeScan` keeps everything that is left. -/
theorem freeScan_keep_all (size freed : ℤ) (l : List Chunk) (h : size ≤ freed) :
    freeScan size freed l = l.reverse := by
  induction l with
  | nil => simp [freeScan]
  | cons c rest ih =>
    unfold freeScan
    rw [if_pos h, ih, List.reverse_cons]

/-- `freeScan` keeps a suffix of its (reversed) input: what survives a
free pass is a prefix of the original allocation order. -/
theorem freeScan_drop (size : ℤ) (l : List Chunk) :
    ∀ freed : ℤ, ∃ m, freeScan size freed l = (l.drop m).reverse := by
  induction l with
  | nil =>
    intro freed
    exact ⟨0, rfl⟩
  | cons c rest ih =>
    intro freed
    by_cases h : size ≤ freed
    · refine ⟨0, ?_⟩
      unfold freeScan
      rw [if_pos h, freeScan_keep_all size freed rest h, ← List.reverse_cons]
      rfl
    · obtain ⟨m, hm⟩ := ih (freed + (c.len : ℤ))
      refine ⟨m + 1, ?_⟩
      unfold freeScan
      rw [if_neg h, hm]
      rfl

/-- What survives a `freeScan` pass weighs at most
`(total weight) + freed - size` (and is never negative). -/
theorem freeScan_sum (size : ℤ) (l : List Chunk) :
    ∀ freed : ℤ,
      allocatedSum (freeScan size freed l) ≤ max 0 (allocatedSum l + freed - size) := by
  induction l with
  | nil =>
    intro freed
    simp only [freeScan, allocatedSum]
    omega
  | cons c rest ih =>
    intro freed
    have hnn := allocatedSum_nonneg rest
    have hcons : allocatedSum (c :: rest) = (c.len : ℤ) + allocatedSum rest := rfl
    by_cases h : size ≤ freed
    · unfold freeScan
      rw [if_pos h, allocatedSum_append, allocatedSum_singleton]
      have hrec := ih freed
      rw [hcons]
      omega
    · unfold freeScan
      rw [if_neg h]
      have hrec := ih (freed + (c.len : ℤ))
      rw [hcons]
      omega

/-- `allocateMemory` appends the full 10 MiB chunks and the remainder
chunk, exactly as the source loop does. -/
theorem allocate_chunks_eq (w : MemoryWorker) (size : ℤ) :
    (w.allocateMemory size).allocatedMem =
      w.allocatedMem
        ++ List.replicate (size.tdiv (10 * 1024 * 1024)).toNat
             (mkChunk ((10 * 1024 * 1024 : ℤ)).toNat)
        ++ (if size.tmod (10 * 1024 * 1024) > 0
            then [mkChunk ((size.tmod (10 * 1024 * 1024)).toNat)]
            else []) := rfl

/-- For a positive request, `allocateMemory` adds exactly `size` bytes. -/
theorem allocate_sum (w : MemoryWorker) (size : ℤ) (hpos : 0 < size) :
    allocatedSum ((w.allocateMemory size).allocatedMem) =
      allocatedSum w.allocatedMem + size := by
  rw [allocate_chunks_eq, allocatedSum_append, allocatedSum_append,
    allocatedSum_replicate]
  have hq : 0 ≤ size.tdiv (10 * 1024 * 1024) :=
    Int.tdiv_nonneg hpos.le (by norm_num)
  have hr : 0 ≤ size.tmod (10 * 1024 * 1024) := Int.tmod_nonneg _ hpos.le
  have heq := Int.tdiv_add_tmod size (10 * 1024 * 1024)
  have hlenfull : ((mkChunk ((10 * 1024 * 1024 : ℤ)).toNat).len : ℤ) = 10485760 := by
    rw [mkChunk_len]
    norm_num
  rw [hlenfull]
  by_cases h : size.tmod (10 * 1024 * 1024) > 0
  · rw [if_pos h, allocatedSum_singleton, mkChunk_len]
    omega
  · rw [if_neg h]
    show _ + allocatedSum [] = _
    unfold allocatedSum
    omega

/-- The tick body of a running worker, in closed form. -/
theorem memTick_running_eq (w : MemoryWorker) (hr : w.running = true) :
    w.tick =
      (if w.targetSize - w.getCurrentAllocatedSize > 0 then
        w.allocateMemory (w.targetSize - w.getCurrentAllocatedSize)
      else if w.targetSize - w.getCurrentAllocatedSize < 0 then
        w.freeMemory (-(w.targetSize - w.getCurrentAllocatedSize))
      else w) := by
  unfold MemoryWorker.tick
  rw [hr]
  simp

/-- `(l.reverse.drop n).reverse` is a `take` of `l`. -/
theorem reverse_drop_reverse (l : List Chunk) (n : ℕ) :
    (l.reverse.drop n).reverse = l.take (l.length - n) := by
  rw [List.reverse_drop]
  simp

/-- C7: on a convergence tick of a running worker with a nonnegative
target: when allocated is below target, the tick appends
`⌊diff/10MiB⌋` full 10 MiB chunks plus at most one remainder chunk
(every allocator-built chunk is touched at the 4096-byte stride) and
lands exactly on the target; when above, it keeps only a prefix of the
allocation-ordered chunk list (freeing from the most recent end) and
ends within the target; `GetAllocatedSize` always equals the exact sum
of held chunk sizes; and after the tick the allocated total never
exceeds `TargetSize + one 10 MiB chunk unit`. -/
theorem mem_tick_convergence (w : MemoryWorker) (hr : w.running = true)
    (hT : 0 ≤ w.targetSize) :
    (allocatedSum w.allocatedMem < w.targetSize →
      (w.tick).allocatedMem =
        w.allocatedMem
          ++ List.replicate
               ((w.targetSize - allocatedSum w.allocatedMem).tdiv
                 (10 * 1024 * 1024)).toNat
               (mkChunk ((10 * 1024 * 1024 : ℤ)).toNat)
          ++ (if (w.targetSize - allocatedSum w.allocatedMem).tmod
                  (10 * 1024 * 1024) > 0
              then [mkChunk (((w.targetSize - allocatedSum w.allocatedMem).tmod
                     (10 * 1024 * 1024)).toNat)]
              else []) ∧
      allocatedSum (w.tick).allocatedMem = w.targetSize) ∧
    (∀ n j : ℕ, j % 4096 = 0 → (mkChunk n).byteAt j = j % 256) ∧
    (w.targetSize < allocatedSum w.allocatedMem →
      (∃ k, (w.tick).allocatedMem = w.allocatedMem.take k) ∧
      allocatedSum (w.tick).allocatedMem ≤ w.targetSize) ∧
    (∀ v : MemoryWorker, v.GetAllocatedSize = allocatedSum v.allocatedMem) ∧
    allocatedSum (w.tick).allocatedMem ≤ w.targetSize + 10 * 1024 * 1024 := by
  have htick := memTick_running_eq w hr
  have hcur : w.getCurrentAllocatedSize = allocatedSum w.allocatedMem := rfl
  have hallocCase : allocatedSum w.allocatedMem < w.targetSize →
      (w.tick).allocatedMem =
        w.allocatedMem
          ++ List.replicate
               ((w.targetSize - allocatedSum w.allocatedMem).tdiv
                 (10 * 1024 * 1024)).toNat
               (mkChunk ((10 * 1024 * 1024 : ℤ)).toNat)
          ++ (if (w.targetSize - allocatedSum w.allocatedMem).tmod
                  (10 * 1024 * 1024) > 0
              then [mkChunk (((w.targetSize - allocatedSum w.allocatedMem).tmod
                     (10 * 1024 * 1024)).toNat)]
              else []) ∧
      allocatedSum (w.tick).allocatedMem = w.targetSize := by
    intro hlt
    have hpos : w.targetSize - w.getCurrentAllocatedSize > 0 := by
      rw [hcur]
      omega
    rw [htick, if_pos hpos, hcur]
    constructor
    · exact allocate_chunks_eq w _
    · rw [allocate_sum w _ (by omega)]
      omega
  have hfreeCase : w.targetSize < allocatedSum w.allocatedMem →
      (∃ k, (w.tick).allocatedMem = w.allocatedMem.take k) ∧
      allocatedSum (w.tick).allocatedMem ≤ w.targetSize := by
    intro hgt
    have hneg : ¬ (w.targetSize - w.getCurrentAllocatedSize > 0) := by
      rw [hcur]
      omega
    have hneg2 : w.targetSize - w.getCurrentAllocatedSize < 0 := by
      rw [hcur]
      omega
    rw [htick, if_neg hneg, if_pos hneg2]
    constructor
    · obtain ⟨m, hm⟩ :=
        freeScan_drop (-(w.targetSize - w.getCurrentAllocatedSize))
          w.allocatedMem.reverse 0
      refine ⟨w.allocatedMem.length - m, ?_⟩
      show freeScan _ 0 w.allocatedMem.reverse = _
      rw [hm, reverse_drop_reverse]
    · have hsum :=
        freeScan_sum (-(w.targetSize - w.getCurrentAllocatedSize))
          w.allocatedMem.reverse 0
      rw [allocatedSum_reverse] at hsum
      show allocatedSum (freeScan _ 0 w.allocatedMem.reverse) ≤ _
      omega
  refine ⟨hallocCase, fun n j h => mkChunk_touched n j h, hfreeCase,
    fun v => rfl, ?_⟩
  rcases lt_trichotomy (allocatedSum w.allocatedMem) w.targetSize with hlt | heq | hgt
  · have := (hallocCase hlt).2
    omega
  · have hz1 : ¬ (w.targetSize - w.getCurrentAllocatedSize > 0) := by
      rw [hcur]
      omega
    have hz2 : ¬ (w.targetSize - w.getCurrentAllocatedSize < 0) := by
      rw [hcur]
      omega
    rw [htick, if_neg hz1, if_neg hz2]
    omega
  · have := (hfreeCase hgt).2
    omega

/-- Witness for C7: a running worker with an empty chunk list and a
25 MiB target allocates exactly to the target in one tick (two full
10 MiB chunks plus one 5 MiB remainder), staying within target + one
chunk unit. -/
theorem mem_tick_convergence_witness :
    ({ threshold := 70, running := true, allocatedMem := [],
       targetSize := 26214400, totalMemory := 17179869184,
       lastAdjustTime := 0 : MemoryWorker }).running = true ∧
    (0 : ℤ) ≤ 26214400 ∧
    allocatedSum (({ threshold := 70, running := true, allocatedMem := [],
                     targetSize := 26214400, totalMemory := 17179869184,
                     lastAdjustTime := 0 : MemoryWorker }).tick).allocatedMem
      = 26214400 ∧
    allocatedSum (({ threshold := 70, running := true, allocatedMem := [],
                     targetSize := 26214400, totalMemory := 17179869184,
                     lastAdjustTime := 0 : MemoryWorker }).tick).allocatedMem
      ≤ 26214400 + 10 * 1024 * 1024 := by
  have h := mem_tick_convergence
    { threshold := 70, running := true, allocatedMem := [],
      targetSize := 26214400, totalMemory := 17179869184,
      lastAdjustTime := 0 } rfl (by norm_num)
  have hlt : allocatedSum ([] : List Chunk) <
      ({ threshold := 70, running := true, allocatedMem := [],
         targetSize := 26214400, totalMemory := 17179869184,
         lastAdjustTime := 0 : MemoryWorker }).targetSize := by
    unfold allocatedSum
    norm_num
  exact ⟨rfl, by norm_num, (h.1 hlt).2, h.2.2.2.2⟩

/-! ## C3 — sampler failure skips the tick -/

/-- A failed CPU sample short-circuits the whole tick. -/
theorem ctrlTick_cpu_err (cfg : CtrlConfig) (s : CtrlState) (i : TickInput)
    (h : i.cpuSample = none) :
    ctrlTick cfg s i =
      (s, if cfg.showWindow then [Event.logCPUSampleError] else []) := by
  simp [ctrlTick, h]

/-- A failed memory sample (after a successful CPU sample) short-circuits
the whole tick. -/
theorem ctrlTick_mem_err (cfg : CtrlConfig) (s : CtrlState) (i : TickInput)
    (cu : ℚ) (hc : i.cpuSample = some cu) (h : i.memSample = none) :
    ctrlTick cfg s i =
      (s, if cfg.showWindow then [Event.logMemSampleError] else []) := by
  simp [ctrlTick, hc, h]

/-- C3 counterexample: on a tick whose CPU sample errors (window hidden),
the controller changes nothing and emits *no* event at all — in
particular nothing reaches the Notification Sink, contradicting
"reports the failure to the Notification Sink". -/
theorem sample_error_no_notification_counterexample :
    ctrlTick
      { cpuThreshold := 70, memThreshold := 70, showWindow := false,
        numCPU := 4, vmTotal := none }
      { cpu := NewCPUWorker 70 4 0,
        mem := NewMemoryWorker 70 (some 17179869184) 0,
        lastCPUWorkerState := false, lastMemWorkerState := false }
      { now := 0, cpuSample := none, memSample := some 50 } =
      ({ cpu := NewCPUWorker 70 4 0,
         mem := NewMemoryWorker 70 (some 17179869184) 0,
         lastCPUWorkerState := false, lastMemWorkerState := false }, []) ∧
    Event.notifySampleFailed ∉
      (ctrlTick
        { cpuThreshold := 70, memThreshold := 70, showWindow := false,
          numCPU := 4, vmTotal := none }
        { cpu := NewCPUWorker 70 4 0,
          mem := NewMemoryWorker 70 (some 17179869184) 0,
          lastCPUWorkerState := false, lastMemWorkerState := false }
        { now := 0, cpuSample := none, memSample := some 50 }).2 := by
  refine ⟨rfl, ?_⟩
  rw [show (ctrlTick
      { cpuThreshold := 70, memThreshold := 70, showWindow := false,
        numCPU := 4, vmTotal := none }
      { cpu := NewCPUWorker 70 4 0,
        mem := NewMemoryWorker 70 (some 17179869184) 0,
        lastCPUWorkerState := false, lastMemWorkerState := false }
      { now := 0, cpuSample := none, memSample := some 50 }).2 =
      ([] : List Event) from rfl]
  simp

/-- C3 (amended): a tick in which the CPU sample or the memory sample
errors is skipped entirely — the controller state (both worker states and
both per-resource decisions) is unchanged, no worker call
(`Start`/`Stop`/`AdjustLoad`) is issued and nothing is sent to the
Notification Sink; the only effect is a console log, and only when the
window is shown; the failure is not fatal — the run continues with the
remaining ticks from the same state. -/
theorem sample_error_skips_tick (cfg : CtrlConfig) (s : CtrlState) (i : TickInput)
    (h : i.cpuSample = none ∨ i.memSample = none) :
    (ctrlTick cfg s i).1 = s ∧
    (∀ e ∈ (ctrlTick cfg s i).2,
      e.isWorkerCall = false ∧ e.isNotification = false) ∧
    (∀ rest : List TickInput,
      (ctrlRun cfg s (i :: rest)).1 = (ctrlRun cfg s rest).1 ∧
      (ctrlRun cfg s (i :: rest)).2 =
        (ctrlTick cfg s i).2 ++ (ctrlRun cfg s rest).2) := by
  have key : (ctrlTick cfg s i).1 = s ∧
      ((ctrlTick cfg s i).2 = [] ∨
        (ctrlTick cfg s i).2 = [Event.logCPUSampleError] ∨
        (ctrlTick cfg s i).2 = [Event.logMemSampleError]) := by
    rcases hc : i.cpuSample with _ | cu
    · rw [ctrlTick_cpu_err cfg s i hc]
      cases hw : cfg.showWindow <;> simp
    · rcases h with h1 | h2
      · rw [hc] at h1
        exact absurd h1 (by simp)
      · rw [ctrlTick_mem_err cfg s i cu hc h2]
        cases hw : cfg.showWindow <;> simp
  refine ⟨key.1, ?_, ?_⟩
  · intro e he
    rcases key.2 with h0 | h0 | h0 <;> rw [h0] at he
    · simp at he
    · simp at he
      subst he
      exact ⟨rfl, rfl⟩
    · simp at he
      subst he
      exact ⟨rfl, rfl⟩
  · intro rest
    constructor
    · show (ctrlRun cfg (ctrlTick cfg s i).1 rest).1 = _
      rw [key.1]
    · show (ctrlTick cfg s i).2 ++ (ctrlRun cfg (ctrlTick cfg s i).1 rest).2 = _
      rw [key.1]

/-- Witness for C3 at a concrete erroring tick (window shown this time):
state unchanged, only a console log emitted, run continues. -/
theorem sample_error_skips_tick_witness :
    (({ now := 5, cpuSample := none,
        memSample := some 50 : TickInput }).cpuSample = none ∨
      ({ now := 5, cpuSample := none,
         memSample := some 50 : TickInput }).memSample = none) ∧
    (ctrlTick
      { cpuThreshold := 70, memThreshold := 70, showWindow := true,
        numCPU := 4, vmTotal := none }
      { cpu := NewCPUWorker 70 4 0,
        mem := NewMemoryWorker 70 (some 17179869184) 0,
        lastCPUWorkerState := false, lastMemWorkerState := false }
      { now := 5, cpuSample := none, memSample := some 50 }).1 =
      { cpu := NewCPUWorker 70 4 0,
        mem := NewMemoryWorker 70 (some 17179869184) 0,
        lastCPUWorkerState := false, lastMemWorkerState := false } ∧
    (∀ e ∈ (ctrlTick
      { cpuThreshold := 70, memThreshold := 70, showWindow := true,
        numCPU := 4, vmTotal := none }
      { cpu := NewCPUWorker 70 4 0,
        mem := NewMemoryWorker 70 (some 17179869184) 0,
        lastCPUWorkerState := false, lastMemWorkerState := false }
      { now := 5, cpuSample := none, memSample := some 50 }).2,
      e.isWorkerCall = false ∧ e.isNotification = false) := by
  have h := sample_error_skips_tick
    { cpuThreshold := 70, memThreshold := 70, showWindow := true,
      numCPU := 4, vmTotal := none }
    { cpu := NewCPUWorker 70 4 0,
      mem := NewMemoryWorker 70 (some 17179869184) 0,
      lastCPUWorkerState := false, lastMemWorkerState := false }
    { now := 5, cpuSample := none, memSample := some 50 }
    (Or.inl rfl)
  exact ⟨Or.inl rfl, h.1, h.2.1⟩

/-! ## C4 — edge-triggered Start/Stop, no flapping -/

/-- When the CPU decision equals the previous one, the CPU phase issues
no `Start`/`Stop` call and keeps the decision. -/
theorem ctrlCPUPhase_no_edge (cfg : CtrlConfig) (now : ℚ) (cpu : CPUWorker)
    (lastState : Bool) (cwu other : ℚ)
    (h : decide (other < (cfg.cpuThreshold : ℚ)) = lastState) :
    (ctrlCPUPhase cfg now cpu lastState cwu other).2.1 = lastState ∧
    ((ctrlCPUPhase cfg now cpu lastState cwu other).2.2).countP
      Event.isCPUStartCall = 0 ∧
    ((ctrlCPUPhase cfg now cpu lastState cwu other).2.2).countP
      Event.isCPUStopCall = 0 := by
  unfold ctrlCPUPhase
  rw [h]
  cases lastState <;>
    simp [Event.isCPUStartCall, Event.isCPUStopCall]

/-- A `false → true` CPU transition issues exactly one `Start` call, no
`Stop` call, and flips the stored decision to `true`. -/
theorem ctrlCPUPhase_start_edge (cfg : CtrlConfig) (now : ℚ) (cpu : CPUWorker)
    (cwu other : ℚ) (h : other < (cfg.cpuThreshold : ℚ)) :
    (ctrlCPUPhase cfg now cpu false cwu other).2.1 = true ∧
    ((ctrlCPUPhase cfg now cpu false cwu other).2.2).countP
      Event.isCPUStartCall = 1 ∧
    ((ctrlCPUPhase cfg now cpu false cwu other).2.2).countP
      Event.isCPUStopCall = 0 := by
  unfold ctrlCPUPhase
  rw [decide_eq_true h]
  simp [Event.isCPUStartCall, Event.isCPUStopCall]

/-- The memory phase never issues CPU calls. -/
theorem ctrlMemPhase_cpu_counts (cfg : CtrlConfig) (now : ℚ)
    (mem : MemoryWorker) (lastState : Bool) (mwu other : ℚ) :
    ((ctrlMemPhase cfg now mem lastState mwu other).2.2).countP
      Event.isCPUStartCall = 0 ∧
    ((ctrlMemPhase cfg now mem lastState mwu other).2.2).countP
      Event.isCPUStopCall = 0 := by
  unfold ctrlMemPhase
  dsimp only
  split_ifs <;>
    simp [Event.isCPUStartCall, Event.isCPUStopCall]

/-- The CPU phase never issues memory calls. -/
theorem ctrlCPUPhase_mem_counts (cfg : CtrlConfig) (now : ℚ)
    (cpu : CPUWorker) (lastState : Bool) (cwu other : ℚ) :
    ((ctrlCPUPhase cfg now cpu lastState cwu other).2.2).countP
      Event.isMemStartCall = 0 ∧
    ((ctrlCPUPhase cfg now cpu lastState cwu other).2.2).countP
      Event.isMemStopCall = 0 := by
  unfold ctrlCPUPhase
  dsimp only
  split_ifs <;>
    simp [Event.isMemStartCall, Event.isMemStopCall]

/-- When the memory decision equals the previous one, the memory phase
issues no `Start`/`Stop` call and keeps the decision. -/
theorem ctrlMemPhase_no_edge (cfg : CtrlConfig) (now : ℚ) (mem : MemoryWorker)
    (lastState : Bool) (mwu other : ℚ)
    (h : decide (other < (cfg.memThreshold : ℚ)) = lastState) :
    (ctrlMemPhase cfg now mem lastState mwu other).2.1 = lastState ∧
    ((ctrlMemPhase cfg now mem lastState mwu other).2.2).countP
      Event.isMemStartCall = 0 ∧
    ((ctrlMemPhase cfg now mem lastState mwu other).2.2).countP
      Event.isMemStopCall = 0 := by
  unfold ctrlMemPhase
  rw [h]
  cases lastState <;>
    simp [Event.isMemStartCall, Event.isMemStopCall]

/-- A successful-samples tick decomposes into the two phases. -/
theorem ctrlTick_some_parts (cfg : CtrlConfig) (s : CtrlState) (now cu mu : ℚ) :
    (ctrlTick cfg s { now := now, cpuSample := some cu, memSample := some mu }).1.lastCPUWorkerState =
      (ctrlCPUPhase cfg now s.cpu s.lastCPUWorkerState
        (s.cpu.GetUsage cfg.numCPU) (max 0 (cu - s.cpu.GetUsage cfg.numCPU))).2.1 ∧
    (ctrlTick cfg s { now := now, cpuSample := some cu, memSample := some mu }).2 =
      (ctrlCPUPhase cfg now s.cpu s.lastCPUWorkerState
        (s.cpu.GetUsage cfg.numCPU) (max 0 (cu - s.cpu.GetUsage cfg.numCPU))).2.2 ++
      (ctrlMemPhase cfg now s.mem s.lastMemWorkerState
        s.mem.GetUsage (max 0 (mu - s.mem.GetUsage))).2.2 := by
  constructor <;> rfl

/-- A tick whose CPU decision is unchanged issues no CPU `Start`/`Stop`
call and keeps the stored CPU decision. -/
theorem ctrlTick_cpu_no_edge (cfg : CtrlConfig) (s : CtrlState) (now cu mu : ℚ)
    (h : decide (cpuExternal cfg s cu < (cfg.cpuThreshold : ℚ)) =
      s.lastCPUWorkerState) :
    ((ctrlTick cfg s { now := now, cpuSample := some cu, memSample := some mu }).2).countP Event.isCPUStartCall = 0 ∧
    ((ctrlTick cfg s { now := now, cpuSample := some cu, memSample := some mu }).2).countP Event.isCPUStopCall = 0 ∧
    (ctrlTick cfg s { now := now, cpuSample := some cu, memSample := some mu }).1.lastCPUWorkerState = s.lastCPUWorkerState := by
  unfold cpuExternal at h
  have hparts := ctrlTick_some_parts cfg s now cu mu
  have hcpu := ctrlCPUPhase_no_edge cfg now s.cpu s.lastCPUWorkerState
    (s.cpu.GetUsage cfg.numCPU) (max 0 (cu - s.cpu.GetUsage cfg.numCPU)) h
  have hmem := ctrlMemPhase_cpu_counts cfg now s.mem s.lastMemWorkerState
    s.mem.GetUsage (max 0 (mu - s.mem.GetUsage))
  rw [hparts.2, List.countP_append, List.countP_append, hparts.1]
  rw [hcpu.2.1, hcpu.2.2, hmem.1, hmem.2]
  exact ⟨rfl, rfl, hcpu.1⟩

/-- A tick taking the `false → true` CPU transition issues exactly one
CPU `Start`, no CPU `Stop`, and stores decision `true`. -/
theorem ctrlTick_cpu_start_edge (cfg : CtrlConfig) (s : CtrlState)
    (now cu mu : ℚ) (hlast : s.lastCPUWorkerState = false)
    (h : cpuExternal cfg s cu < (cfg.cpuThreshold : ℚ)) :
    ((ctrlTick cfg s { now := now, cpuSample := some cu, memSample := some mu }).2).countP Event.isCPUStartCall = 1 ∧
    ((ctrlTick cfg s { now := now, cpuSample := some cu, memSample := some mu }).2).countP Event.isCPUStopCall = 0 ∧
    (ctrlTick cfg s { now := now, cpuSample := some cu, memSample := some mu }).1.lastCPUWorkerState = true := by
  unfold cpuExternal at h
  have hparts := ctrlTick_some_parts cfg s now cu mu
  rw [hlast] at hparts
  have hcpu := ctrlCPUPhase_start_edge cfg now s.cpu
    (s.cpu.GetUsage cfg.numCPU) (max 0 (cu - s.cpu.GetUsage cfg.numCPU)) h
  have hmem := ctrlMemPhase_cpu_counts cfg now s.mem s.lastMemWorkerState
    s.mem.GetUsage (max 0 (mu - s.mem.GetUsage))
  rw [hparts.2, List.countP_append, List.countP_append, hparts.1]
  rw [hcpu.2.1, hcpu.2.2, hmem.1, hmem.2]
  exact ⟨rfl, rfl, hcpu.1⟩

/-- While the stored CPU decision is `true` and the computed external CPU
usage stays below the threshold at every tick, a run issues no CPU
`Start` or `Stop` call at all. -/
theorem ctrlRun_cpu_steady (cfg : CtrlConfig) :
    ∀ (inputs : List TickInput) (s : CtrlState),
      s.lastCPUWorkerState = true → cpuAllBelow cfg s inputs →
      ((ctrlRun cfg s inputs).2).countP Event.isCPUStartCall = 0 ∧
      ((ctrlRun cfg s inputs).2).countP Event.isCPUStopCall = 0 := by
  intro inputs
  induction inputs with
  | nil =>
    intro s _ _
    exact ⟨rfl, rfl⟩
  | cons i rest ih =>
    intro s h1 h2
    obtain ⟨⟨cu, mu, hc, hm, hlt⟩, hrest⟩ := h2
    obtain ⟨inow, ics, ims⟩ := i
    simp only at hc hm
    subst hc
    subst hm
    have hd : decide (cpuExternal cfg s cu < (cfg.cpuThreshold : ℚ)) =
        s.lastCPUWorkerState := by
      rw [h1]
      exact decide_eq_true hlt
    have htick := ctrlTick_cpu_no_edge cfg s inow cu mu hd
    have hnext := ih (ctrlTick cfg s
      { now := inow, cpuSample := some cu, memSample := some mu }).1
      (by rw [htick.2.2]; exact h1) hrest
    show (((ctrlTick cfg s _).2) ++ ((ctrlRun cfg _ rest).2)).countP _ = 0 ∧
      (((ctrlTick cfg s _).2) ++ ((ctrlRun cfg _ rest).2)).countP _ = 0
    rw [List.countP_append, List.countP_append]
    rw [htick.1, htick.2.1, hnext.1, hnext.2]
    exact ⟨rfl, rfl⟩

/-- C4: per-resource edge triggering.  (1) On any successful-samples tick
whose CPU decision (`external < threshold`) equals the previous tick's,
no CPU `Start`/`Stop` call is issued; (2) likewise for the memory
resource; (3) over any run that begins with the idle decision and whose
computed external CPU usage stays strictly below the threshold at every
tick, exactly one CPU `Start` call and zero CPU `Stop` calls are
issued — the transition fires once and never flaps. -/
theorem ctrl_edge_triggered_start_stop (cfg : CtrlConfig) :
    (∀ (s : CtrlState) (now cu mu : ℚ),
      decide (cpuExternal cfg s cu < (cfg.cpuThreshold : ℚ)) =
          s.lastCPUWorkerState →
      ((ctrlTick cfg s { now := now, cpuSample := some cu, memSample := some mu }).2).countP Event.isCPUStartCall = 0 ∧
      ((ctrlTick cfg s { now := now, cpuSample := some cu, memSample := some mu }).2).countP Event.isCPUStopCall = 0) ∧
    (∀ (s : CtrlState) (now cu mu : ℚ),
      decide (memExternal s mu < (cfg.memThreshold : ℚ)) =
          s.lastMemWorkerState →
      ((ctrlTick cfg s { now := now, cpuSample := some cu, memSample := some mu }).2).countP Event.isMemStartCall = 0 ∧
      ((ctrlTick cfg s { now := now, cpuSample := some cu, memSample := some mu }).2).countP Event.isMemStopCall = 0) ∧
    (∀ (inputs : List TickInput) (s : CtrlState),
      s.lastCPUWorkerState = false → inputs ≠ [] →
      cpuAllBelow cfg s inputs →
      ((ctrlRun cfg s inputs).2).countP Event.isCPUStartCall = 1 ∧
      ((ctrlRun cfg s inputs).2).countP Event.isCPUStopCall = 0) := by
  refine ⟨?_, ?_, ?_⟩
  · intro s now cu mu h
    have htick := ctrlTick_cpu_no_edge cfg s now cu mu h
    exact ⟨htick.1, htick.2.1⟩
  · intro s now cu mu h
    unfold memExternal at h
    have hparts := ctrlTick_some_parts cfg s now cu mu
    have hmem := ctrlMemPhase_no_edge cfg now s.mem s.lastMemWorkerState
      s.mem.GetUsage (max 0 (mu - s.mem.GetUsage)) h
    have hcpu := ctrlCPUPhase_mem_counts cfg now s.cpu s.lastCPUWorkerState
      (s.cpu.GetUsage cfg.numCPU) (max 0 (cu - s.cpu.GetUsage cfg.numCPU))
    rw [hparts.2, List.countP_append, List.countP_append]
    rw [hcpu.1, hcpu.2, hmem.2.1, hmem.2.2]
    exact ⟨rfl, rfl⟩
  · intro inputs s h1 hne hbelow
    cases inputs with
    | nil => exact absurd rfl hne
    | cons i rest =>
      obtain ⟨⟨cu, mu, hc, hm, hlt⟩, hrest⟩ := hbelow
      obtain ⟨inow, ics, ims⟩ := i
      simp only at hc hm
      subst hc
      subst hm
      have htick := ctrlTick_cpu_start_edge cfg s inow cu mu h1 hlt
      have hnext := ctrlRun_cpu_steady cfg rest (ctrlTick cfg s
        { now := inow, cpuSample := some cu, memSample := some mu }).1
        htick.2.2 hrest
      show (((ctrlTick cfg s _).2) ++ ((ctrlRun cfg _ rest).2)).countP _ = 1 ∧
        (((ctrlTick cfg s _).2) ++ ((ctrlRun cfg _ rest).2)).countP _ = 0
      rw [List.countP_append, List.countP_append]
      rw [htick.1, htick.2.1, hnext.1, hnext.2]
      exact ⟨rfl, rfl⟩

/-- Witness for C4: from the idle decision, one tick with external CPU
usage 10% (below the 70% threshold) issues exactly one CPU `Start` and no
CPU `Stop`. -/
theorem ctrl_edge_triggered_start_stop_witness :
    ({ cpu := NewCPUWorker 70 4 0,
       mem := NewMemoryWorker 70 (some 17179869184) 0,
       lastCPUWorkerState := false,
       lastMemWorkerState := false : CtrlState }).lastCPUWorkerState = false ∧
    ([{ now := 0, cpuSample := some 10,
        memSample := some 90 : TickInput }] ≠ []) ∧
    cpuAllBelow
      { cpuThreshold := 70, memThreshold := 70, showWindow := false,
        numCPU := 4, vmTotal := none }
      { cpu := NewCPUWorker 70 4 0,
        mem := NewMemoryWorker 70 (some 17179869184) 0,
        lastCPUWorkerState := false, lastMemWorkerState := false }
      [{ now := 0, cpuSample := some 10, memSample := some 90 }] ∧
    ((ctrlRun
      { cpuThreshold := 70, memThreshold := 70, showWindow := false,
        numCPU := 4, vmTotal := none }
      { cpu := NewCPUWorker 70 4 0,
        mem := NewMemoryWorker 70 (some 17179869184) 0,
        lastCPUWorkerState := false, lastMemWorkerState := false }
      [{ now := 0, cpuSample := some 10,
         memSample := some 90 }]).2).countP Event.isCPUStartCall = 1 ∧
    ((ctrlRun
      { cpuThreshold := 70, memThreshold := 70, showWindow := false,
        numCPU := 4, vmTotal := none }
      { cpu := NewCPUWorker 70 4 0,
        mem := NewMemoryWorker 70 (some 17179869184) 0,
        lastCPUWorkerState := false, lastMemWorkerState := false }
      [{ now := 0, cpuSample := some 10,
         memSample := some 90 }]).2).countP Event.isCPUStopCall = 0 := by
  have hbelow : cpuAllBelow
      { cpuThreshold := 70, memThreshold := 70, showWindow := false,
        numCPU := 4, vmTotal := none }
      { cpu := NewCPUWorker 70 4 0,
        mem := NewMemoryWorker 70 (some 17179869184) 0,
        lastCPUWorkerState := false, lastMemWorkerState := false }
      [{ now := 0, cpuSample := some 10, memSample := some 90 }] := by
    refine ⟨⟨10, 90, rfl, rfl, ?_⟩, trivial⟩
    show max 0 ((10 : ℚ) - (NewCPUWorker 70 4 0).GetUsage 4) < 70
    norm_num [CPUWorker.GetUsage, NewCPUWorker, max_def]
  have h := (ctrl_edge_triggered_start_stop
    { cpuThreshold := 70, memThreshold := 70, showWindow := false,
      numCPU := 4, vmTotal := none }).2.2
    [{ now := 0, cpuSample := some 10, memSample := some 90 }]
    { cpu := NewCPUWorker 70 4 0,
      mem := NewMemoryWorker 70 (some 17179869184) 0,
      lastCPUWorkerState := false, lastMemWorkerState := false }
    rfl (by simp) hbelow
  exact ⟨rfl, by simp, hbelow, h.1, h.2⟩

end MikaBooM
